import Mathlib

/-!
Shallow embedding of the sharebox FUSE filesystem (sharebox.py).

The filesystem presents a git-annex working tree as an ordinary
read/write directory.  We model the kernel-callback surface of the
`ShareBox` class, the `CopyOnWrite` and `AnnexUnlock` guards, the
control channel (`dotcommand`) and the sync engine (`sync`).

External shell commands (`git annex unlock`, `git annex add`,
`git commit`, ...) are modelled as transitions on an abstract state
and additionally recorded in an event trace, so that theorems can
speak both about which commands were invoked and about their effect
on the revision log.
-/

namespace Sharebox

/-- errno EACCES, as raised by `FuseOSError(EACCES)`. -/
def EACCES : Nat := 13

/-- `os.R_OK`, the read bit tested by `ShareBox.access`. -/
def R_OK : Nat := 4

/-- One shell command or syscall performed by a callback, recorded in
the trace in invocation order. -/
inductive Event where
  | annexUnlock (path : String)
  | annexAdd (path : String)
  | gitCommit (msg : String)
  | gitRm (path : String)
  | gitMv (a b : String)
  | gitResetHard
  | gitClean
  | gitFetchAll
  | gitMerge (ref : String)
  | annexGet (spec : String)
  | notify (msg : String)
  | osOpen (path : String) (fd : Nat)
  | osClose (fd : Nat)
  | osRead (fd size offset : Nat)
  | osWrite (fd len offset : Nat)
  | osFsync (fd : Nat)
  | osRename (a b : String)
  | osTruncate (path : String) (len : Nat)
  | osChmod (path : String) (mode : Nat)
  | osChown (path : String) (uid gid : Nat)
  | osLseek (fd offset : Nat)
  deriving Repr, DecidableEq

/-- Result of a FUSE callback: a value, a bare Python `return` (None),
or a raised `FuseOSError(errno)`. -/
inductive FuseResult (α : Type) where
  | ok (a : α)
  | retNone
  | err (errno : Nat)
  deriving Repr, DecidableEq

/-- State of the mounted filesystem: the `opened_copies` dictionary of
the `ShareBox` instance, a fresh-fd counter for `os.open`, oracles for
the path predicates the code consults (`annexed`, `os.path.exists`,
`os.access`, `ignored`), and an abstract model of the git repository
(staged paths, revision log, working/committed tree snapshots). -/
structure SBState where
  openedCopies : List (Nat × Nat)
  nextFd : Nat
  annexedP : String → Bool
  existsP : String → Bool
  accessOkP : String → Nat → Bool
  ignoredP : String → Bool
  modifiedP : String → Bool
  fetchableP : String → Bool
  staged : List String
  log : List String
  remotes : List String
  mergeOkP : String → Bool
  mergeTreeP : String → Nat
  tree : Nat
  headTree : Nat
  getall : Bool
  mountpoint : String

/-- Dictionary lookup `opened_copies.get(fh, None)`. -/
def lookupFh : List (Nat × Nat) → Nat → Option Nat
  | [], _ => none
  | e :: rest, fh => if e.1 = fh then some e.2 else lookupFh rest fh

/-- Dictionary deletion `del opened_copies[fh]`. -/
def eraseFh : List (Nat × Nat) → Nat → List (Nat × Nat)
  | [], _ => []
  | e :: rest, fh => if e.1 = fh then eraseFh rest fh else e :: eraseFh rest fh

/-- `shell_do('git annex unlock "path"')`: replaces the read-only
annex symlink by a writable copy in place, so afterwards the path is
no longer a symlink into the annex. -/
def annexUnlockCmd (p : String) (s : SBState) : SBState × List Event :=
  ({ s with annexedP := fun q => if q = p then false else s.annexedP q },
   [Event.annexUnlock p])

/-- Modelled from the spec: `shell_do('git annex add "path"')`.  The
external store ingests the file and leaves a symlink in its stead; the
operation stages the path exactly when the working copy differs from
the committed content, and is a no-op on an unchanged annexed file. -/
def annexAddCmd (p : String) (s : SBState) : SBState × List Event :=
  (if s.modifiedP p then
     { s with staged := s.staged ++ [p],
              modifiedP := fun q => if q = p then false else s.modifiedP q,
              annexedP := fun q => if q = p then true else s.annexedP q }
   else s,
   [Event.annexAdd p])

/-- Modelled from the spec: `shell_do('git commit -m msg')`.  Records
the staged paths as a new revision; with nothing staged the command is
a no-op on the revision log (treated as success). -/
def gitCommitCmd (msg : String) (s : SBState) : SBState × List Event :=
  (if s.staged.isEmpty then s
   else { s with log := s.log ++ [msg], staged := [], headTree := s.tree },
   [Event.gitCommit msg])

/-- Modelled from the spec: `shell_do('git rm "path"')` stages the
removal of a tracked path. -/
def gitRmCmd (p : String) (s : SBState) : SBState × List Event :=
  ({ s with staged := s.staged ++ [p] }, [Event.gitRm p])

/-- Modelled from the spec: `shell_do('git mv "a" "b"')` stages the
structural rename of a tracked path. -/
def gitMvCmd (a b : String) (s : SBState) : SBState × List Event :=
  ({ s with staged := s.staged ++ [a] }, [Event.gitMv a b])

/-- Modelled from the spec: `shell_do('git reset --hard')` restores
the working tree to the committed tree and empties the staging area. -/
def gitResetHardCmd (s : SBState) : SBState × List Event :=
  ({ s with tree := s.headTree, staged := [],
            modifiedP := fun _ => false },
   [Event.gitResetHard])

/-- Modelled from the spec: `shell_do('git clean -f')` removes
untracked files; after a preceding hard reset the working tree equals
the committed tree. -/
def gitCleanCmd (s : SBState) : SBState × List Event :=
  (s, [Event.gitClean])

/-- Modelled from the spec: `shell_do('git annex get "spec"')`
materialises the annexed content locally when a remote can provide
it. -/
def annexGetCmd (spec : String) (s : SBState) : SBState × List Event :=
  ({ s with existsP := fun q =>
       if q = spec then (s.existsP q || s.fetchableP q) else s.existsP q },
   [Event.annexGet spec])

/-- Modelled from the spec: `shell_do('git merge remote/master')`.  On
success the working and committed trees advance to the merged tree; on
failure the working tree is left in a half-merged state (modelled as a
fresh snapshot distinct from the committed tree). -/
def gitMergeCmd (ref : String) (r : String) (s : SBState) :
    Bool × SBState × List Event :=
  if s.mergeOkP r then
    (true,
     { s with tree := s.mergeTreeP r, headTree := s.mergeTreeP r },
     [Event.gitMerge ref])
  else
    (false, { s with tree := s.headTree + 1 + s.mergeTreeP r },
     [Event.gitMerge ref])

/-- `CopyOnWrite.__enter__` (sharebox.py lines 153-160): when `unlock`
is set and no copy is yet recorded for `fh` and the path is annexed,
unlock the path and install a fresh write fd in `opened_copies`; in
every case return `opened_copies.get(fh, fh)`. -/
def cowEnter (path : String) (fh : Nat) (unlock : Bool) (s : SBState) :
    Nat × SBState × List Event :=
  if unlock then
    match lookupFh s.openedCopies fh with
    | some fd => (fd, s, [])
    | none =>
      if s.annexedP path then
        let su := (annexUnlockCmd path s).1
        let fd := su.nextFd
        (fd,
         { su with nextFd := su.nextFd + 1,
                   openedCopies := (fh, fd) :: su.openedCopies },
         (annexUnlockCmd path s).2 ++ [Event.osOpen path fd])
      else (fh, s, [])
  else ((lookupFh s.openedCopies fh).getD fh, s, [])

/-- `CopyOnWrite.__exit__` (sharebox.py lines 162-172): when `commit`
is set, close and evict the recorded copy fd (if any), then, unless the
path is ignored, run `git annex add` and `git commit`. -/
def cowExit (path : String) (fh : Nat) (commit : Bool) (s : SBState) :
    SBState × List Event :=
  if commit then
    let cleanup : SBState × List Event :=
      match lookupFh s.openedCopies fh with
      | some fd =>
        ({ s with openedCopies := eraseFh s.openedCopies fh },
         [Event.osClose fd])
      | none => (s, [])
    let s1 := cleanup.1
    if s1.ignoredP path then (s1, cleanup.2)
    else
      let sa := (annexAddCmd path s1).1
      let sc := (gitCommitCmd ("changed " ++ path) sa).1
      (sc, cleanup.2 ++ (annexAddCmd path s1).2 ++
        (gitCommitCmd ("changed " ++ path) sa).2)
  else (s, [])

/-- `ShareBox.sync`, body of the per-remote loop (sharebox.py lines
464-480): attempt `git merge remote/master`; on success optionally
`git annex get .` and commit a merge message; on failure, when
`manual_merge` is set notify first and then reset and clean, otherwise
reset, clean and then notify.  Empty remote names are skipped. -/
def syncRemote (manualMerge : Bool) (r : String) (s : SBState) :
    SBState × List Event :=
  if r = "" then (s, [])
  else
    let step := gitMergeCmd (r ++ "/master") r s
    let s1 := step.2.1
    if step.1 then
      let (s2, ev2) := if s1.getall then annexGetCmd "." s1 else (s1, [])
      let (s3, ev3) := gitCommitCmd ("merged with " ++ r) s2
      (s3, step.2.2 ++ ev2 ++ ev3)
    else
      if manualMerge then
        let ev2 := [Event.notify "Manual merge invoked, but not implemented."]
        let (s3, ev3) := gitResetHardCmd s1
        let (s4, ev4) := gitCleanCmd s3
        (s4, step.2.2 ++ ev2 ++ ev3 ++ ev4)
      else
        let (s2, ev2) := gitResetHardCmd s1
        let (s3, ev3) := gitCleanCmd s2
        let ev4 := [Event.notify
          ("Manual merge is required. Run: \nsharebox --merge " ++
            s.mountpoint)]
        (s3, step.2.2 ++ ev2 ++ ev3 ++ ev4)

/-- `ShareBox.sync` (sharebox.py lines 457-480): fetch all remotes,
then run the per-remote merge loop over `git remote show` output. -/
def sync (manualMerge : Bool) (s : SBState) : SBState × List Event :=
  s.remotes.foldl
    (fun acc r =>
      let (s2, ev2) := syncRemote manualMerge r acc.1
      (s2, acc.2 ++ ev2))
    (s, [Event.gitFetchAll])

/-- Python `str.strip`, leading part: drop leading whitespace. -/
def dropWs : List Char → List Char
  | [] => []
  | c :: rest => if c.isWhitespace then dropWs rest else c :: rest

/-- Python `text.strip()`: drop whitespace from both ends. -/
def pyStrip (l : List Char) : List Char :=
  ((dropWs ((dropWs l).reverse)).reverse)

/-- Python `text.split(chr(10))`: split on newlines, keeping empty
pieces (the split of the empty text is one empty piece). -/
def splitNl : List Char → List (List Char)
  | [] => [[]]
  | c :: rest =>
    match splitNl rest with
    | [] => [[]]
    | l :: ls => if c = '\n' then [] :: l :: ls else (c :: l) :: ls

/-- Python `command.startswith("get ")`. -/
def startsWithGet : List Char → Bool
  | 'g' :: 'e' :: 't' :: ' ' :: _ => true
  | _ => false

/-- `ShareBox.dotcommand` (sharebox.py lines 448-455): strip the
payload, split on newlines, and dispatch each line: `sync` runs a sync
with `manual_merge=False`, `merge` with `manual_merge=True`, and a
line starting with `get ` runs `git annex get` on its remainder; all
other lines are ignored. -/
def dotcommand (text : String) (s : SBState) : SBState × List Event :=
  (splitNl (pyStrip text.data)).foldl
    (fun acc cmd =>
      let (st1, ev1) :=
        if cmd = "sync".data then sync false acc.1 else (acc.1, [])
      let (st2, ev2) :=
        if cmd = "merge".data then sync true st1 else (st1, [])
      let (st3, ev3) :=
        if startsWithGet cmd then
          annexGetCmd (String.mk (cmd.drop 4)) st2
        else (st2, [])
      (st3, acc.2 ++ ev1 ++ ev2 ++ ev3))
    (s, [])

namespace ShareBox

/-- `ShareBox.create` (sharebox.py lines 241-242):
`os.open(path, O_WRONLY | O_CREAT, mode)`; note that the returned fd
is not registered anywhere. -/
def create (path : String) (mode : Nat) (s : SBState) :
    FuseResult Nat × SBState × List Event :=
  let fd := s.nextFd
  (.ok fd,
   { s with nextFd := s.nextFd + 1,
            existsP := fun q => if q = path then true else s.existsP q },
   [Event.osOpen path fd])

/-- `ShareBox.open` (sharebox.py lines 275-294), named `openOp` since
`open` is a reserved word: the control path opens `/dev/null`; a
missing annexed path is fetched with `git annex get` and access is
refused if it is still missing; otherwise the path is opened. -/
def openOp (path : String) (flags : Nat) (s : SBState) :
    FuseResult Nat × SBState × List Event :=
  if path = "./.command" then
    let fd := s.nextFd
    (.ok fd, { s with nextFd := s.nextFd + 1 },
     [Event.osOpen "/dev/null" fd])
  else
    if s.annexedP path then
      let (s1, ev1) :=
        if s.existsP path then (s, []) else annexGetCmd path s
      if s1.existsP path then
        let fd := s1.nextFd
        (.ok fd, { s1 with nextFd := s1.nextFd + 1 },
         ev1 ++ [Event.osOpen path fd])
      else (.err EACCES, s1, ev1)
    else
      let fd := s.nextFd
      (.ok fd, { s with nextFd := s.nextFd + 1 },
       [Event.osOpen path fd])

/-- `ShareBox.access` (sharebox.py lines 259-273): the control path
rejects any mode containing the read bit; an annexed path is denied
exactly when its content is missing (the host check is skipped); any
other path defers to the host `os.access`. -/
def access (path : String) (mode : Nat) (s : SBState) :
    FuseResult Unit × SBState × List Event :=
  if path = "./.command" then
    if mode &&& R_OK ≠ 0 then (.err EACCES, s, []) else (.retNone, s, [])
  else
    if s.annexedP path then
      if s.existsP path then (.retNone, s, []) else (.err EACCES, s, [])
    else
      if s.accessOkP path mode then (.retNone, s, [])
      else (.err EACCES, s, [])

/-- `ShareBox.read` (sharebox.py lines 376-384): the control path
returns bare `None`; otherwise the CopyOnWrite guard is entered with
`unlock=False, commit=False` and the read happens on the fd the guard
returns. -/
def read (path : String) (size offset fh : Nat) (s : SBState) :
    FuseResult Nat × SBState × List Event :=
  if path = "./.command" then (.retNone, s, [])
  else
    let (fh2, s1, ev1) := cowEnter path fh false s
    let (s2, ev2) := cowExit path fh false s1
    (.ok fh2, s2,
     ev1 ++ [Event.osLseek fh2 offset, Event.osRead fh2 size offset] ++ ev2)

/-- `ShareBox.flush` (sharebox.py lines 358-365): guard with
`unlock=False, commit=False`, then `os.fsync` on the guard fd. -/
def flush (path : String) (fh : Nat) (s : SBState) :
    FuseResult Unit × SBState × List Event :=
  if path = "./.command" then (.retNone, s, [])
  else
    let (fh2, s1, ev1) := cowEnter path fh false s
    let (s2, ev2) := cowExit path fh false s1
    (.retNone, s2, ev1 ++ [Event.osFsync fh2] ++ ev2)

/-- `ShareBox.fsync` (sharebox.py lines 367-374): identical to flush
up to the extra `datasync` argument. -/
def fsync (path : String) (datasync fh : Nat) (s : SBState) :
    FuseResult Unit × SBState × List Event :=
  if path = "./.command" then (.retNone, s, [])
  else
    let (fh2, s1, ev1) := cowEnter path fh false s
    let (s2, ev2) := cowExit path fh false s1
    (.retNone, s2, ev1 ++ [Event.osFsync fh2] ++ ev2)

/-- `ShareBox.write` (sharebox.py lines 386-395): the control path
dispatches `dotcommand` and reports `len(data)` consumed; otherwise
the CopyOnWrite guard is entered with `unlock=True, commit=False` and
the write happens on the fd the guard returns, marking the path
modified. -/
def write (path : String) (data : String) (offset fh : Nat) (s : SBState) :
    FuseResult Nat × SBState × List Event :=
  if path = "./.command" then
    let (s1, ev1) := dotcommand data s
    (.ok data.length, s1, ev1)
  else
    let (fh2, s1, ev1) := cowEnter path fh true s
    let s1b := { s1 with
      modifiedP := fun q => if q = path then true else s1.modifiedP q }
    let (s2, ev2) := cowExit path fh false s1b
    (.ok data.length, s2,
     ev1 ++ [Event.osLseek fh2 offset, Event.osWrite fh2 data.length offset]
       ++ ev2)

/-- `ShareBox.release` (sharebox.py lines 397-404): the CopyOnWrite
guard is entered with `unlock=False, commit=True`; the guard body
closes the kernel fd, and the guard exit evicts the recorded copy and
runs `git annex add` plus `git commit` unless the path is ignored. -/
def release (path : String) (fh : Nat) (s : SBState) :
    FuseResult Unit × SBState × List Event :=
  let s1 := (cowEnter path fh false s).2.1
  let (s2, ev2) := cowExit path fh true s1
  (.retNone, s2,
   (cowEnter path fh false s).2.2 ++ [Event.osClose fh] ++ ev2)

/-- `ShareBox.truncate` (sharebox.py lines 349-356): the control path
returns silently; otherwise AnnexUnlock around an in-place truncate. -/
def truncate (path : String) (length : Nat) (s : SBState) :
    FuseResult Unit × SBState × List Event :=
  if path = "./.command" then (.retNone, s, [])
  else
    let wasAnnexed := s.annexedP path
    let (s1, ev1) := if wasAnnexed then annexUnlockCmd path s else (s, [])
    let s2 := { s1 with
      modifiedP := fun q => if q = path then true else s1.modifiedP q }
    let ev2 := [Event.osTruncate path length]
    if wasAnnexed then
      let (s3, ev3) := annexAddCmd path s2
      let (s4, ev4) := gitCommitCmd ("changed " ++ path) s3
      (.retNone, s4, ev1 ++ ev2 ++ ev3 ++ ev4)
    else (.retNone, s2, ev1 ++ ev2)

/-- `ShareBox.chmod` (sharebox.py lines 333-339): the control path
raises EACCES; otherwise AnnexUnlock around `os.chmod`. -/
def chmod (path : String) (mode : Nat) (s : SBState) :
    FuseResult Unit × SBState × List Event :=
  if path = "./.command" then (.err EACCES, s, [])
  else
    let wasAnnexed := s.annexedP path
    let (s1, ev1) := if wasAnnexed then annexUnlockCmd path s else (s, [])
    let ev2 := [Event.osChmod path mode]
    if wasAnnexed then
      let (s3, ev3) := annexAddCmd path s1
      let (s4, ev4) := gitCommitCmd ("changed " ++ path) s3
      (.retNone, s4, ev1 ++ ev2 ++ ev3 ++ ev4)
    else (.retNone, s1, ev1 ++ ev2)

/-- `ShareBox.chown` (sharebox.py lines 341-347): the control path
raises EACCES; otherwise AnnexUnlock around `os.chown`. -/
def chown (path : String) (uid gid : Nat) (s : SBState) :
    FuseResult Unit × SBState × List Event :=
  if path = "./.command" then (.err EACCES, s, [])
  else
    let wasAnnexed := s.annexedP path
    let (s1, ev1) := if wasAnnexed then annexUnlockCmd path s else (s, [])
    let ev2 := [Event.osChown path uid gid]
    if wasAnnexed then
      let (s3, ev3) := annexAddCmd path s1
      let (s4, ev4) := gitCommitCmd ("changed " ++ path) s3
      (.retNone, s4, ev1 ++ ev2 ++ ev3 ++ ev4)
    else (.retNone, s1, ev1 ++ ev2)

/-- `ShareBox.rename` (sharebox.py lines 406-424): reject the control
path; force-add a non-ignored source; rename on the backing
filesystem; then, when the source or the destination is ignored,
translate into `git rm + commit` and/or `git annex add + commit` for
the non-ignored side, else `git mv + commit`. -/
def rename (old new : String) (s : SBState) :
    FuseResult Unit × SBState × List Event :=
  if old = "./.command" ∨ new = "/.command" then (.err EACCES, s, [])
  else
    let (s1, ev1) := if ¬ s.ignoredP old then annexAddCmd old s else (s, [])
    let s1b := { s1 with
      existsP := fun q =>
        if q = "." ++ new then true
        else if q = old then false else s1.existsP q,
      modifiedP := fun q =>
        if q = "." ++ new then true else s1.modifiedP q }
    let ev2 := [Event.osRename old ("." ++ new)]
    if s.ignoredP old || s.ignoredP ("." ++ new) then
      let (s2, ev3) :=
        if ¬ s.ignoredP old then
          let (sa, eva) := gitRmCmd old s1b
          let (sb, evb) :=
            gitCommitCmd ("moved " ++ old ++ " to ignored file") sa
          (sb, eva ++ evb)
        else (s1b, [])
      let (s3, ev4) :=
        if ¬ s.ignoredP ("." ++ new) then
          let (sa, eva) := annexAddCmd ("." ++ new) s2
          let (sb, evb) :=
            gitCommitCmd ("moved an ignored file to ." ++ new) sa
          (sb, eva ++ evb)
        else (s2, [])
      (.retNone, s3, ev1 ++ ev2 ++ ev3 ++ ev4)
    else
      let (sa, eva) := gitMvCmd old ("." ++ new) s1b
      let (sb, evb) := gitCommitCmd ("moved " ++ old ++ " to ." ++ new) sa
      (.retNone, sb, ev1 ++ ev2 ++ eva ++ evb)

end ShareBox

/-- Recogniser for `git annex unlock` events. -/
def isUnlockEv : Event → Bool
  | .annexUnlock _ => true
  | _ => false

/-- Recogniser for `git annex add` events. -/
def isAddEv : Event → Bool
  | .annexAdd _ => true
  | _ => false

/-- Recogniser for `git commit` events. -/
def isCommitEv : Event → Bool
  | .gitCommit _ => true
  | _ => false

/-- Recogniser for notification events. -/
def isNotifyEv : Event → Bool
  | .notify _ => true
  | _ => false

/-- Recogniser for `git mv` (store rename) events. -/
def isStoreRenameEv : Event → Bool
  | .gitMv _ _ => true
  | _ => false

/-- A concrete mount state used by the concrete witnesses and
counterexamples below: empty open-file table, fresh fds from 10, no
annexed or ignored paths, everything present and accessible, clean
repository with an empty revision log, a single remote `origin` whose
merges fail. -/
def baseState : SBState where
  openedCopies := []
  nextFd := 10
  annexedP := fun _ => false
  existsP := fun _ => true
  accessOkP := fun _ _ => true
  ignoredP := fun _ => false
  modifiedP := fun _ => false
  fetchableP := fun _ => true
  staged := []
  log := []
  remotes := ["origin"]
  mergeOkP := fun _ => false
  mergeTreeP := fun _ => 0
  tree := 0
  headTree := 0
  getall := false
  mountpoint := "/mnt/sharebox"

/-- A mount state in which handle 5 already has the writable copy fd 9
recorded in `opened_copies` (the situation right after a first write
unlocked the file, which also makes the path no longer annexed). -/
def cowState : SBState :=
  { baseState with openedCopies := [(5, 9)] }

/-- State for the C4 counterexample: `./f` is annexed and present, but
the host `os.access` denies every request. -/
def c4State : SBState :=
  { baseState with
      annexedP := fun q => q == "./f",
      accessOkP := fun _ _ => false }

/-- State for the C5 counterexample: every path is ignored. -/
def ignAllState : SBState :=
  { baseState with ignoredP := fun _ => true }

/-- The read-only round trip of claim C8: `open` a path, `read`
through the returned handle, then `release` it, never writing.
Returns the final mount state, or `none` when the open failed. -/
def roTrip (p : String) (flags sz off : Nat) (s : SBState) :
    Option SBState :=
  match ShareBox.openOp p flags s with
  | (FuseResult.ok fd, s1, _) =>
    some (ShareBox.release p fd (ShareBox.read p sz off fd s1).2.1).2.1
  | _ => none

/-- Deleting a handle from the table makes its lookup miss. -/
theorem lookupFh_eraseFh (l : List (Nat × Nat)) (fh : Nat) :
    lookupFh (eraseFh l fh) fh = none := by
  induction l with
  | nil => rfl
  | cons e rest ih =>
    by_cases h : e.1 = fh <;> simp [eraseFh, lookupFh, h, ih]

/-- `git annex add` never touches the open-file table. -/
theorem annexAddCmd_openedCopies (p : String) (s : SBState) :
    (annexAddCmd p s).1.openedCopies = s.openedCopies := by
  by_cases h : s.modifiedP p = true <;> simp [annexAddCmd, h]

/-- `git commit` never touches the open-file table. -/
theorem gitCommitCmd_openedCopies (m : String) (s : SBState) :
    (gitCommitCmd m s).1.openedCopies = s.openedCopies := by
  by_cases h : s.staged.isEmpty = true <;> simp [gitCommitCmd, h]

/-- `open` never changes the revision log, the staging area, the
modification oracle or the ignore oracle. -/
theorem openOp_frame (p : String) (flags : Nat) (s : SBState) :
    (ShareBox.openOp p flags s).2.1.log = s.log ∧
    (ShareBox.openOp p flags s).2.1.staged = s.staged ∧
    (ShareBox.openOp p flags s).2.1.modifiedP = s.modifiedP ∧
    (ShareBox.openOp p flags s).2.1.ignoredP = s.ignoredP := by
  by_cases h1 : p = "./.command"
  · simp [ShareBox.openOp, h1]
  · by_cases h2 : s.annexedP p = true
    · by_cases h3 : s.existsP p = true
      · simp [ShareBox.openOp, h1, h2, h3]
      · by_cases h4 : s.fetchableP p = true <;>
          simp [ShareBox.openOp, annexGetCmd, h1, h2, h3, h4]
    · simp [ShareBox.openOp, h1, h2]

/-- A non-control `read` leaves the mount state entirely unchanged. -/
theorem read_state_id (p : String) (sz off fh : Nat) (s : SBState)
    (hctl : p ≠ "./.command") :
    (ShareBox.read p sz off fh s).2.1 = s := by
  simp [ShareBox.read, cowEnter, cowExit, hctl]

/-- `release` of a non-ignored, unmodified path with an empty staging
area leaves the revision log unchanged: the `git annex add` stages
nothing and the `git commit` is a no-op. -/
theorem release_log_id (p : String) (fh : Nat) (s : SBState)
    (hign : s.ignoredP p = false) (hmod : s.modifiedP p = false)
    (hstaged : s.staged = []) :
    (ShareBox.release p fh s).2.1.log = s.log := by
  rcases hl : lookupFh s.openedCopies fh with _ | fd <;>
    simp [ShareBox.release, cowEnter, cowExit, annexAddCmd, gitCommitCmd,
          hl, hign, hmod, hstaged]

/-- C3 counterexample: `truncate` on the control path `/.command` is a
silent no-op (the handler returns bare `None`), it does not fail with
EACCES, contrary to the claim that all three of truncate, chmod and
chown fail with EACCES there. -/
theorem claim_C3_counterexample :
    (ShareBox.truncate "./.command" 0 baseState).1 = FuseResult.retNone ∧
    (ShareBox.truncate "./.command" 0 baseState).1 ≠
      FuseResult.err EACCES ∧
    (ShareBox.truncate "./.command" 0 baseState).2.1 = baseState ∧
    (ShareBox.truncate "./.command" 0 baseState).2.2 = [] :=
  ⟨rfl, by decide, rfl, rfl⟩

/-- C3 (amended): on the control path `/.command`, chmod and chown
fail with EACCES leaving the backing state untouched, while truncate
silently succeeds (bare `None` return) also leaving the backing state
untouched. -/
theorem claim_C3_control_metadata (mode uid gid len : Nat) (s : SBState) :
    ShareBox.chmod "./.command" mode s = (FuseResult.err EACCES, s, []) ∧
    ShareBox.chown "./.command" uid gid s = (FuseResult.err EACCES, s, []) ∧
    ShareBox.truncate "./.command" len s = (FuseResult.retNone, s, []) :=
  ⟨rfl, rfl, rfl⟩

/-- C3 witness: the amended claim evaluated at concrete inputs. -/
theorem claim_C3_witness :
    (ShareBox.chmod "./.command" 420 baseState).1 = FuseResult.err EACCES ∧
    (ShareBox.chown "./.command" 0 0 baseState).1 = FuseResult.err EACCES ∧
    (ShareBox.truncate "./.command" 7 baseState).1 = FuseResult.retNone := by
  have h := claim_C3_control_metadata 420 0 0 7 baseState
  exact ⟨by rw [h.1], by rw [h.2.1], by rw [h.2.2]⟩

/-- C4 counterexample: for the annexed, present path `./f` whose
access the host denies, `access` succeeds instead of failing with
EACCES — the host check is skipped for annexed present paths, contrary
to the claim that the code defers to the host whenever the path is not
an annexed-missing one. -/
theorem claim_C4_counterexample :
    c4State.annexedP "./f" = true ∧
    c4State.existsP "./f" = true ∧
    c4State.accessOkP "./f" R_OK = false ∧
    (ShareBox.access "./f" R_OK c4State).1 = FuseResult.retNone ∧
    (ShareBox.access "./f" R_OK c4State).1 ≠ FuseResult.err EACCES := by
  decide

/-- C4 (amended): for every non-control path, when the path is annexed
`access` fails with EACCES exactly when the content is missing (the
host check is never consulted); when the path is not annexed it defers
to the host check, failing with EACCES exactly when the host denies;
the state is never changed. -/
theorem claim_C4_access (path : String) (mode : Nat) (s : SBState)
    (hctl : path ≠ "./.command") :
    (s.annexedP path = true →
      ((ShareBox.access path mode s).1 = FuseResult.err EACCES ↔
        s.existsP path = false)) ∧
    (s.annexedP path = false →
      ((ShareBox.access path mode s).1 = FuseResult.err EACCES ↔
        s.accessOkP path mode = false)) ∧
    (ShareBox.access path mode s).2.1 = s := by
  refine ⟨fun ha => ?_, fun ha => ?_, ?_⟩
  · by_cases he : s.existsP path = true <;>
      simp [ShareBox.access, hctl, ha, he]
  · by_cases hk : s.accessOkP path mode = true <;>
      simp [ShareBox.access, hctl, ha, hk]
  · by_cases ha : s.annexedP path = true <;>
      by_cases he : s.existsP path = true <;>
      by_cases hk : s.accessOkP path mode = true <;>
      simp [ShareBox.access, hctl, ha, he, hk]

/-- C4 witness: the amended claim applied to a concrete annexed
missing path, which is denied. -/
theorem claim_C4_witness :
    ({ baseState with
        annexedP := fun q => q == "./g",
        existsP := fun _ => false } : SBState).annexedP "./g" = true ∧
    ((ShareBox.access "./g" 4
      { baseState with
          annexedP := fun q => q == "./g",
          existsP := fun _ => false }).1 = FuseResult.err EACCES ↔
      ({ baseState with
          annexedP := fun q => q == "./g",
          existsP := fun _ => false } : SBState).existsP "./g" = false) := by
  refine ⟨rfl, ?_⟩
  exact (claim_C4_access "./g" 4
    { baseState with
        annexedP := fun q => q == "./g",
        existsP := fun _ => false } (by decide)).1 rfl

/-- C7 counterexample: reading the control path returns bare `None`
(no data, no errno), not EACCES as claimed. -/
theorem claim_C7_counterexample :
    (ShareBox.read "./.command" 4096 0 5 baseState).1 =
      FuseResult.retNone ∧
    (ShareBox.read "./.command" 4096 0 5 baseState).1 ≠
      FuseResult.err EACCES := by
  decide

/-- C7 (amended): the `read` handler on the control path `/.command`
returns bare `None` with no state change and no commands run; the
EACCES rejection of reads on the control path is raised by the
`access` callback whenever the requested mode includes the read
bit. -/
theorem claim_C7_control_read (sz off fh mode : Nat) (s : SBState)
    (hmode : mode &&& R_OK ≠ 0) :
    ShareBox.read "./.command" sz off fh s = (FuseResult.retNone, s, []) ∧
    (ShareBox.access "./.command" mode s).1 = FuseResult.err EACCES := by
  refine ⟨rfl, ?_⟩
  simp [ShareBox.access, hmode]

/-- C7 witness: the amended claim evaluated at mode `R_OK`. -/
theorem claim_C7_witness :
    (4 &&& R_OK ≠ 0) ∧
    (ShareBox.read "./.command" 1 0 5 baseState).1 = FuseResult.retNone ∧
    (ShareBox.access "./.command" 4 baseState).1 = FuseResult.err EACCES := by
  have h := claim_C7_control_read 1 0 5 4 baseState (by decide)
  exact ⟨by decide, by rw [h.1], h.2⟩

/-- C1: copy-on-write discipline per open handle.  `read`, `flush` and
`fsync` enter the CopyOnWrite guard with `unlock=False, commit=False`
and therefore never unlock (they leave the state unchanged and emit no
unlock command); `write` enters with `unlock=True` and, when a
writable copy is already recorded for the handle, installs nothing
further (the table is unchanged and no unlock runs) — and `write`
never adds or commits; `release` enters with `commit=True`, so the
add-and-commit step runs exactly once for the open (one `git annex
add` and one `git commit` in its trace, on a non-ignored path). -/
theorem claim_C1_guard_discipline (path data : String)
    (sz off ds fh fd0 : Nat) (s : SBState)
    (hctl : path ≠ "./.command") (hign : s.ignoredP path = false)
    (hfd : lookupFh s.openedCopies fh = some fd0) :
    ((ShareBox.read path sz off fh s).2.1 = s ∧
      (ShareBox.read path sz off fh s).2.2.countP isUnlockEv = 0) ∧
    ((ShareBox.flush path fh s).2.1 = s ∧
      (ShareBox.flush path fh s).2.2.countP isUnlockEv = 0) ∧
    ((ShareBox.fsync path ds fh s).2.1 = s ∧
      (ShareBox.fsync path ds fh s).2.2.countP isUnlockEv = 0) ∧
    ((ShareBox.write path data off fh s).2.1.openedCopies =
        s.openedCopies ∧
      (ShareBox.write path data off fh s).2.2.countP isUnlockEv = 0 ∧
      (ShareBox.write path data off fh s).2.2.countP isAddEv = 0 ∧
      (ShareBox.write path data off fh s).2.2.countP isCommitEv = 0) ∧
    ((ShareBox.release path fh s).2.2.countP isAddEv = 1 ∧
      (ShareBox.release path fh s).2.2.countP isCommitEv = 1) := by
  refine ⟨⟨?_, ?_⟩, ⟨?_, ?_⟩, ⟨?_, ?_⟩, ⟨?_, ?_, ?_, ?_⟩, ⟨?_, ?_⟩⟩ <;>
    simp [ShareBox.read, ShareBox.flush, ShareBox.fsync, ShareBox.write,
          ShareBox.release, cowEnter, cowExit, annexAddCmd, gitCommitCmd,
          hctl, hign, hfd, isUnlockEv, isAddEv, isCommitEv]

/-- C1 witness: the guard discipline evaluated on a handle with a
recorded writable copy. -/
theorem claim_C1_witness :
    cowState.ignoredP "./f" = false ∧
    lookupFh cowState.openedCopies 5 = some 9 ∧
    (ShareBox.read "./f" 0 0 5 cowState).2.1 = cowState ∧
    (ShareBox.write "./f" "x" 0 5 cowState).2.1.openedCopies =
      cowState.openedCopies ∧
    (ShareBox.release "./f" 5 cowState).2.2.countP isAddEv = 1 ∧
    (ShareBox.release "./f" 5 cowState).2.2.countP isCommitEv = 1 := by
  have h := claim_C1_guard_discipline "./f" "x" 0 0 0 5 9 cowState
    (by decide) rfl rfl
  exact ⟨rfl, rfl, h.1.1, h.2.2.2.1.1, h.2.2.2.2.1, h.2.2.2.2.2⟩

/-- C2 counterexample: `create` (and `open`) do not insert anything
into the open-file table: after creating `./x` the table of the
resulting state is still empty and the returned handle 10 has no
entry, contrary to the claimed insert-on-create/open lifecycle. -/
theorem claim_C2_counterexample :
    (ShareBox.create "./x" 420 baseState).1 = FuseResult.ok 10 ∧
    (ShareBox.create "./x" 420 baseState).2.1.openedCopies = [] ∧
    lookupFh (ShareBox.create "./x" 420 baseState).2.1.openedCopies
      10 = none ∧
    (ShareBox.openOp "./y" 0 baseState).1 = FuseResult.ok 10 ∧
    lookupFh (ShareBox.openOp "./y" 0 baseState).2.1.openedCopies
      10 = none := by
  decide

/-- C2 (amended): open-file-table lifecycle as implemented.  `create`
and `open` leave the table unchanged (no insertion); an entry for a
handle is inserted at most once, lazily, by the first `write` that
installs a writable copy (which happens exactly when no entry is
recorded and the path is annexed), and a later `write` on a handle
with a recorded entry changes nothing; after `release` the entry for
the handle is absent from the table. -/
theorem claim_C2_table_lifecycle (path data : String)
    (mode flags off fh : Nat) (s : SBState)
    (hctl : path ≠ "./.command") :
    ((ShareBox.create path mode s).2.1.openedCopies = s.openedCopies) ∧
    ((ShareBox.openOp path flags s).2.1.openedCopies = s.openedCopies) ∧
    (lookupFh s.openedCopies fh = none → s.annexedP path = true →
      (ShareBox.write path data off fh s).2.1.openedCopies =
        (fh, s.nextFd) :: s.openedCopies) ∧
    (∀ fd0, lookupFh s.openedCopies fh = some fd0 →
      (ShareBox.write path data off fh s).2.1.openedCopies =
        s.openedCopies) ∧
    lookupFh (ShareBox.release path fh s).2.1.openedCopies fh = none := by
  refine ⟨?_, ?_, fun hnone hann => ?_, fun fd0 hsome => ?_, ?_⟩
  · simp [ShareBox.create]
  · by_cases h2 : s.annexedP path = true
    · by_cases h3 : s.existsP path = true
      · simp [ShareBox.openOp, hctl, h2, h3]
      · by_cases h4 : s.fetchableP path = true <;>
          simp [ShareBox.openOp, annexGetCmd, hctl, h2, h3, h4]
    · simp [ShareBox.openOp, hctl, h2]
  · simp [ShareBox.write, cowEnter, cowExit, annexUnlockCmd, hctl,
          hnone, hann]
  · simp [ShareBox.write, cowEnter, cowExit, hctl, hsome]
  · rcases hl : lookupFh s.openedCopies fh with _ | fd <;>
      by_cases hig : s.ignoredP path = true <;>
      simp [ShareBox.release, cowEnter, cowExit, hl, hig,
            annexAddCmd_openedCopies, gitCommitCmd_openedCopies,
            lookupFh_eraseFh]

/-- C2 witness: the amended lifecycle evaluated on concrete states:
create inserts nothing, and releasing handle 5 evicts its entry. -/
theorem claim_C2_witness :
    ((ShareBox.create "./x" 420 baseState).2.1.openedCopies =
      baseState.openedCopies) ∧
    lookupFh (ShareBox.release "./f" 5 cowState).2.1.openedCopies
      5 = none := by
  have h1 := claim_C2_table_lifecycle "./x" "d" 420 0 0 5 baseState
    (by decide)
  have h2 := claim_C2_table_lifecycle "./f" "d" 0 0 0 5 cowState
    (by decide)
  exact ⟨h1.1, h2.2.2.2.2⟩

/-- C5 counterexample: renaming `./a` to `/b` when both paths are
ignored performs only the backing-filesystem rename; no store rename
(`git mv`) and no commit are invoked, contrary to the claim that every
case other than exactly-one-ignored runs the store rename followed by
a commit. -/
theorem claim_C5_counterexample :
    ignAllState.ignoredP "./a" = true ∧
    ignAllState.ignoredP "./b" = true ∧
    (ShareBox.rename "./a" "/b" ignAllState).2.2 =
      [Event.osRename "./a" "./b"] ∧
    (ShareBox.rename "./a" "/b" ignAllState).2.2.countP
      isStoreRenameEv = 0 ∧
    (ShareBox.rename "./a" "/b" ignAllState).2.2.countP
      isCommitEv = 0 := by
  decide

/-- C5 (amended): rename classification for non-control paths.  When
exactly one side is ignored the operation is translated into the
`git rm + commit` or `git annex add + commit` pair for the non-ignored
side (with the force-add of a non-ignored source first); when neither
side is ignored the store rename `git mv` runs followed by a commit;
when both sides are ignored only the backing rename happens — no
store command and no commit at all. -/
theorem claim_C5_rename_classification (old new : String) (s : SBState)
    (hold : old ≠ "./.command") (hnew : new ≠ "/.command") :
    (s.ignoredP old = false → s.ignoredP ("." ++ new) = true →
      (ShareBox.rename old new s).2.2 =
        [Event.annexAdd old, Event.osRename old ("." ++ new),
         Event.gitRm old,
         Event.gitCommit ("moved " ++ old ++ " to ignored file")]) ∧
    (s.ignoredP old = true → s.ignoredP ("." ++ new) = false →
      (ShareBox.rename old new s).2.2 =
        [Event.osRename old ("." ++ new),
         Event.annexAdd ("." ++ new),
         Event.gitCommit ("moved an ignored file to ." ++ new)]) ∧
    (s.ignoredP old = false → s.ignoredP ("." ++ new) = false →
      (ShareBox.rename old new s).2.2 =
        [Event.annexAdd old, Event.osRename old ("." ++ new),
         Event.gitMv old ("." ++ new),
         Event.gitCommit ("moved " ++ old ++ " to ." ++ new)]) ∧
    (s.ignoredP old = true → s.ignoredP ("." ++ new) = true →
      (ShareBox.rename old new s).2.2 =
        [Event.osRename old ("." ++ new)]) := by
  refine ⟨fun h1 h2 => ?_, fun h1 h2 => ?_, fun h1 h2 => ?_,
    fun h1 h2 => ?_⟩ <;>
    simp [ShareBox.rename, hold, hnew, h1, h2, annexAddCmd, gitRmCmd,
          gitMvCmd, gitCommitCmd]

/-- C5 witness: the classification evaluated at a concrete
neither-ignored rename, which runs `git mv` and a commit. -/
theorem claim_C5_witness :
    baseState.ignoredP "./a" = false ∧
    baseState.ignoredP "./b" = false ∧
    (ShareBox.rename "./a" "/b" baseState).2.2 =
      [Event.annexAdd "./a", Event.osRename "./a" "./b",
       Event.gitMv "./a" "./b",
       Event.gitCommit "moved ./a to ./b"] := by
  have h := claim_C5_rename_classification "./a" "/b" baseState
    (by decide) (by decide)
  exact ⟨rfl, rfl, h.2.2.1 rfl rfl⟩

/-- C6 counterexample: with `manual_merge=True` and a failing remote,
the notification is emitted before `git reset --hard` and
`git clean -f`, contrary to the claim that the engine first reverts
and then notifies. -/
theorem claim_C6_counterexample :
    (syncRemote true "origin" baseState).2 =
      [Event.gitMerge "origin/master",
       Event.notify "Manual merge invoked, but not implemented.",
       Event.gitResetHard, Event.gitClean] ∧
    (syncRemote true "origin" baseState).2.indexOf
        (Event.notify "Manual merge invoked, but not implemented.") <
      (syncRemote true "origin" baseState).2.indexOf
        Event.gitResetHard := by
  decide

/-- C6 (amended): for every remote whose merge fails during a sync
run, the engine runs `git reset --hard` and `git clean -f` and emits
exactly one notification, and records no merge commit for that remote
(the working tree ends equal to the pre-merge tree when it was clean
before the merge).  The order differs by mode: with
`manual_merge=False` the revert precedes the notification, with
`manual_merge=True` the notification comes first. -/
theorem claim_C6_conflict_fallback (m : Bool) (r : String) (s : SBState)
    (hr : r ≠ "") (hfail : s.mergeOkP r = false)
    (hclean : s.tree = s.headTree) :
    ((syncRemote m r s).2 =
      if m then
        [Event.gitMerge (r ++ "/master"),
         Event.notify "Manual merge invoked, but not implemented.",
         Event.gitResetHard, Event.gitClean]
      else
        [Event.gitMerge (r ++ "/master"), Event.gitResetHard,
         Event.gitClean,
         Event.notify ("Manual merge is required. Run: \nsharebox --merge "
           ++ s.mountpoint)]) ∧
    (syncRemote m r s).2.countP isNotifyEv = 1 ∧
    (syncRemote m r s).2.countP isCommitEv = 0 ∧
    (syncRemote m r s).1.tree = s.tree ∧
    (syncRemote m r s).1.log = s.log := by
  cases m <;>
    simp [syncRemote, gitMergeCmd, gitResetHardCmd, gitCleanCmd, hr,
          hfail, hclean, isNotifyEv, isCommitEv]

/-- C6 witness: the fallback evaluated on the failing remote `origin`
of the concrete base state, in automatic mode. -/
theorem claim_C6_witness :
    baseState.mergeOkP "origin" = false ∧
    (syncRemote false "origin" baseState).2.countP isNotifyEv = 1 ∧
    (syncRemote false "origin" baseState).2.countP isCommitEv = 0 ∧
    (syncRemote false "origin" baseState).1.tree = baseState.tree := by
  have h := claim_C6_conflict_fallback false "origin" baseState
    (by decide) rfl rfl
  exact ⟨rfl, h.2.1, h.2.2.1, h.2.2.2.1⟩

/-- C8: a read-only round trip (open, read, release, no write) on a
non-ignored, unmodified path with a clean staging area leaves the
revision log unchanged, even though release always enters the guard
with `commit=True` — the `git annex add` stages nothing and the
`git commit` with nothing staged is a no-op. -/
theorem claim_C8_readonly_no_commit (p : String) (flags sz off : Nat)
    (s t : SBState) (hctl : p ≠ "./.command")
    (hign : s.ignoredP p = false) (hmod : s.modifiedP p = false)
    (hstaged : s.staged = [])
    (h : roTrip p flags sz off s = some t) :
    t.log = s.log := by
  rcases hop : ShareBox.openOp p flags s with ⟨r, s1, ev⟩
  have hfr := openOp_frame p flags s
  rw [hop] at hfr
  unfold roTrip at h
  rw [hop] at h
  cases r with
  | retNone => simp at h
  | err e => simp at h
  | ok fd =>
    simp only [Option.some.injEq] at h
    rw [read_state_id p sz off fd s1 hctl] at h
    have hlog : (ShareBox.release p fd s1).2.1.log = s1.log := by
      refine release_log_id p fd s1 ?_ ?_ ?_
      · rw [hfr.2.2.2]; exact hign
      · rw [hfr.2.2.1]; exact hmod
      · rw [hfr.2.1]; exact hstaged
    rw [← h, hlog, hfr.1]

/-- C8 witness: the round trip evaluated on the concrete base state
keeps the (empty) revision log. -/
theorem claim_C8_witness :
    baseState.ignoredP "./f" = false ∧
    (roTrip "./f" 0 16 0 baseState).map SBState.log =
      some baseState.log := by
  have heq : roTrip "./f" 0 16 0 baseState =
      some (ShareBox.release "./f" 10
        (ShareBox.read "./f" 16 0 10
          (ShareBox.openOp "./f" 0 baseState).2.1).2.1).2.1 := rfl
  have hl := claim_C8_readonly_no_commit "./f" 0 16 0 baseState _
    (by decide) rfl rfl rfl heq
  refine ⟨rfl, ?_⟩
  rw [heq, Option.map_some', hl]

/-- C9: control-channel writes.  A write to `/.command` always reports
the full length of the buffer as consumed and its effect is exactly
`dotcommand` on the payload; `dotcommand` of `sync` runs a sync with
`manual_merge=False`, of `merge` a sync with `manual_merge=True`, of
`get x` the store get on `x`; a single unrecognised command leaves the
state unchanged and runs nothing. -/
theorem claim_C9_control_channel (data c : String) (off fh : Nat)
    (s : SBState)
    (hone : splitNl (pyStrip c.data) = [c.data])
    (hs : c.data ≠ "sync".data) (hm : c.data ≠ "merge".data)
    (hg : startsWithGet c.data = false) :
    (ShareBox.write "./.command" data off fh s).1 =
      FuseResult.ok data.length ∧
    (ShareBox.write "./.command" data off fh s).2.1 =
      (dotcommand data s).1 ∧
    (ShareBox.write "./.command" data off fh s).2.2 =
      (dotcommand data s).2 ∧
    dotcommand "sync\n" s = sync false s ∧
    dotcommand "merge\n" s = sync true s ∧
    dotcommand "get x" s = annexGetCmd "x" s ∧
    dotcommand c s = (s, []) := by
  rcases hd : dotcommand data s with ⟨sd, evd⟩
  rcases hy : sync false s with ⟨sy, evy⟩
  rcases hz : sync true s with ⟨sz2, evz⟩
  refine ⟨?_, ?_, ?_, ?_, ?_, ?_, ?_⟩
  · simp [ShareBox.write, hd]
  · simp [ShareBox.write, hd]
  · simp [ShareBox.write, hd]
  · have h1 : splitNl (pyStrip ("sync\n".data)) = ["sync".data] := by
      decide
    simp [dotcommand, h1, hy, startsWithGet]
  · have h1 : splitNl (pyStrip ("merge\n".data)) = ["merge".data] := by
      decide
    simp [dotcommand, h1, hz, startsWithGet]
  · have h1 : splitNl (pyStrip ("get x".data)) = ["get x".data] := by
      decide
    simp [dotcommand, h1, annexGetCmd, startsWithGet]
  · rw [dotcommand, hone]
    simp [hs, hm, hg]

/-- C9 witness: `write("/.command", "sync\n")` reports 5 bytes
consumed, and the unrecognised command `frobnicate` is ignored. -/
theorem claim_C9_witness :
    (ShareBox.write "./.command" "sync\n" 0 7 baseState).1 =
      FuseResult.ok 5 ∧
    dotcommand "frobnicate" baseState = (baseState, []) := by
  have h := claim_C9_control_channel "sync\n" "frobnicate" 0 7 baseState
    (by decide) (by decide) (by decide) (by decide)
  exact ⟨h.1, h.2.2.2.2.2.2⟩

/-- C10 counterexample: in a state where handle 5 has the recorded
copy fd 9 (as after a first write unlocked the file, which made the
path non-annexed), a write to the non-annexed path `./f` goes through
fd 9, not through the kernel-supplied fd 5, contrary to the claim that
writes to non-annexed paths always use the kernel fd unchanged. -/
theorem claim_C10_counterexample :
    cowState.annexedP "./f" = false ∧
    (ShareBox.write "./f" "ab" 0 5 cowState).2.2 =
      [Event.osLseek 9 0, Event.osWrite 9 2 0] ∧
    Event.osWrite 5 2 0 ∉ (ShareBox.write "./f" "ab" 0 5 cowState).2.2 := by
  decide

/-- C10 (amended): writable copies are installed only by `write` and
only for a path that is annexed at that moment.  A write to a
non-annexed, non-control path never unlocks anything and never creates
a table entry, and — when no copy is already recorded for the handle
from an earlier write — it writes through the kernel-supplied fd
unchanged (with a recorded copy, the copy fd is used instead); read,
flush, fsync, create and open never touch the table either. -/
theorem claim_C10_annexed_only (path data : String)
    (sz off ds fh mode flags : Nat) (s : SBState)
    (hctl : path ≠ "./.command") (hann : s.annexedP path = false) :
    ((ShareBox.write path data off fh s).2.2.countP isUnlockEv = 0) ∧
    ((ShareBox.write path data off fh s).2.1.openedCopies =
      s.openedCopies) ∧
    (lookupFh s.openedCopies fh = none →
      (ShareBox.write path data off fh s).2.2 =
        [Event.osLseek fh off, Event.osWrite fh data.length off]) ∧
    ((ShareBox.read path sz off fh s).2.1.openedCopies =
      s.openedCopies) ∧
    ((ShareBox.flush path fh s).2.1.openedCopies = s.openedCopies) ∧
    ((ShareBox.fsync path ds fh s).2.1.openedCopies = s.openedCopies) ∧
    ((ShareBox.create path mode s).2.1.openedCopies = s.openedCopies) ∧
    ((ShareBox.openOp path flags s).2.1.openedCopies =
      s.openedCopies) := by
  refine ⟨?_, ?_, fun hnone => ?_, ?_, ?_, ?_, ?_, ?_⟩
  · rcases hl : lookupFh s.openedCopies fh with _ | fd <;>
      simp [ShareBox.write, cowEnter, cowExit, hctl, hann, hl,
            isUnlockEv]
  · rcases hl : lookupFh s.openedCopies fh with _ | fd <;>
      simp [ShareBox.write, cowEnter, cowExit, hctl, hann, hl]
  · simp [ShareBox.write, cowEnter, cowExit, hctl, hann, hnone]
  · simp [ShareBox.read, cowEnter, cowExit, hctl]
  · simp [ShareBox.flush, cowEnter, cowExit, hctl]
  · simp [ShareBox.fsync, cowEnter, cowExit, hctl]
  · simp [ShareBox.create]
  · by_cases h2 : s.annexedP path = true
    · by_cases h3 : s.existsP path = true
      · simp [ShareBox.openOp, hctl, h2, h3]
      · by_cases h4 : s.fetchableP path = true <;>
          simp [ShareBox.openOp, annexGetCmd, hctl, h2, h3, h4]
    · simp [ShareBox.openOp, hctl, h2]

/-- C10 witness: a write to the non-annexed path `./f` on the base
state (no recorded copy) runs no unlock and uses the kernel fd. -/
theorem claim_C10_witness :
    baseState.annexedP "./f" = false ∧
    (ShareBox.write "./f" "ab" 0 5 baseState).2.2.countP
      isUnlockEv = 0 ∧
    (ShareBox.write "./f" "ab" 0 5 baseState).2.2 =
      [Event.osLseek 5 0, Event.osWrite 5 2 0] := by
  have h := claim_C10_annexed_only "./f" "ab" 0 0 0 5 0 0 baseState
    (by decide) rfl
  exact ⟨rfl, h.1, h.2.2.1 rfl⟩

end Sharebox
